import Mathlib

/-!
# Mock SSH shell: command interpreter, line editor and request handlers

A shallow embedding of `ssh.go`.  Go strings and byte slices are lists of
bytes (natural numbers below 256).  The effects of a handler are made
explicit: the bytes written to the channel are collected in order, the
package-level `cmdBuffer` is a field of the state, and a run-time panic
(slice bounds out of range) is a status of its own.
-/

namespace SshServer

/-- Go strings and byte slices: a sequence of bytes, each a number below 256. -/
abbrev Bytes := List Nat

/-- The bytes of an ASCII string literal of the source. -/
def ascii (s : String) : Bytes := s.toList.map Char.toNat

/-- Go slice expression `s[:hi]`: it panics (`none`) when `hi` exceeds `len(s)`. -/
def sliceTo (s : Bytes) (hi : Nat) : Option Bytes :=
  if hi ≤ s.length then some (s.take hi) else none

/-- Go slice expression `s[lo:]`: it panics (`none`) when `lo` exceeds `len(s)`. -/
def sliceFrom (s : Bytes) (lo : Nat) : Option Bytes :=
  if lo ≤ s.length then some (s.drop lo) else none

/-- Go conversion `string(b)` of a byte `b`: the UTF-8 encoding of the code
point `b`, one byte below 0x80 and two bytes from 0x80 to 0xff. -/
def stringOfByte (b : Nat) : Bytes :=
  if b < 128 then [b] else [192 + b / 64, 128 + b % 64]

/-- The constant `prefix` of `handleEchoCommand`. -/
def echoPfx : Bytes := ascii "echo "

/-- The bytes `handleEchoCommand` writes to the channel for `input`
(`ssh.go` lines 171-179).  The diagnostic `fmt.Println` goes to the standard
output of the server, not to the channel. -/
def handleEchoCommand (input : Bytes) : Bytes :=
  if input.length ≥ echoPfx.length ∧ input.take echoPfx.length = echoPfx then
    input.drop echoPfx.length ++ ascii "\r\n"
  else
    ascii "Unsupported Command: " ++ input ++ ascii "\r\n"

/-- The Command Interpreter as the specification words it: the remainder after
the prefix `"echo "` and a line break when the input begins with that prefix,
otherwise `"Unsupported Command: "`, the full input and a line break. -/
def commandInterpreterSpec (input : Bytes) : Bytes :=
  if (ascii "echo ").isPrefixOf input then
    input.drop 5 ++ [13, 10]
  else
    ascii "Unsupported Command: " ++ input ++ [13, 10]

/-- How far `handleShell` has got. -/
inductive Status
  | running
  | eof
  | returned
  | panicked
deriving DecidableEq

/-- The state `handleShell` works on: the package-level `cmdBuffer`, the local
`cursorPos`, the unread input of `reader`, the bytes written to the channel so
far (`out`), the arguments of the calls of `handleEchoCommand` so far
(`echoCalls`) and the control status. -/
structure Shell where
  cmdBuffer : Bytes
  cursorPos : Nat
  reader : Bytes
  out : Bytes
  echoCalls : List Bytes
  status : Status
deriving DecidableEq

/-- The function `handleEscapeSequence` (`ssh.go` lines 134-162).  The second
component is `true` when an error is returned, which happens when `ReadByte`
finds the input exhausted. -/
def handleEscapeSequence (s : Shell) : Shell × Bool :=
  match s.reader with
  | [] => (s, true)
  | seq1 :: r1 =>
    if seq1 ≠ 91 then
      ({ s with reader := r1 }, false)
    else
      match r1 with
      | [] => ({ s with reader := [] }, true)
      | seq2 :: r2 =>
        if seq2 = 67 then
          if s.cursorPos < s.cmdBuffer.length then
            ({ s with reader := r2, cursorPos := s.cursorPos + 1,
                      out := s.out ++ ascii "\x1b[C" }, false)
          else
            ({ s with reader := r2 }, false)
        else if seq2 = 68 then
          if s.cursorPos > 0 then
            ({ s with reader := r2, cursorPos := s.cursorPos - 1,
                      out := s.out ++ ascii "\x1b[D" }, false)
          else
            ({ s with reader := r2 }, false)
        else
          ({ s with reader := r2 }, false)

/-- The body of the `for` loop of `handleShell` after the byte `b` has been
read: the `switch b` of `ssh.go` lines 78-130. -/
def shellBody (b : Nat) (s : Shell) : Shell :=
  if b = 13 ∨ b = 10 then
    if s.cmdBuffer = ascii "exit" then
      { s with out := s.out ++ ascii "\r\n" ++ ascii "Goodbye!\n", status := Status.returned }
    else
      { s with out := s.out ++ ascii "\r\n" ++ handleEchoCommand s.cmdBuffer ++ ascii "$ ",
               echoCalls := s.echoCalls ++ [s.cmdBuffer],
               cmdBuffer := [],
               cursorPos := 0 }
  else if b = 127 ∨ b = 8 then
    if s.cursorPos > 0 ∧ s.cmdBuffer.length > 0 then
      match sliceTo s.cmdBuffer (s.cursorPos - 1), sliceFrom s.cmdBuffer s.cursorPos with
      | some leftPart, some rightPart =>
        { s with cmdBuffer := leftPart ++ rightPart,
                 cursorPos := s.cursorPos - 1,
                 out := s.out ++ ascii "\x08 \x08" ++ (rightPart ++ ascii " ")
                          ++ (ascii "\x08" ++ List.replicate rightPart.length 8) }
      | _, _ => { s with status := Status.panicked }
    else s
  else if b = 3 then
    { s with cmdBuffer := [], out := s.out ++ ascii "^C\r\n$ " }
  else if b = 4 then
    { s with out := s.out ++ ascii "\r\nlogout\r\n", status := Status.returned }
  else if b = 12 then
    { s with out := s.out ++ ascii "\x1b[H\x1b[2J$ " }
  else if b = 27 then
    match handleEscapeSequence s with
    | (s1, true) => { s1 with status := Status.returned }
    | (s1, false) => s1
  else
    if s.cursorPos = s.cmdBuffer.length then
      { s with cmdBuffer := s.cmdBuffer ++ [b],
               cursorPos := s.cursorPos + 1,
               out := s.out ++ [b] }
    else
      match sliceTo s.cmdBuffer s.cursorPos, sliceFrom s.cmdBuffer s.cursorPos with
      | some leftPart, some rightPart =>
        { s with cmdBuffer := leftPart ++ stringOfByte b ++ rightPart,
                 cursorPos := s.cursorPos + 1,
                 out := s.out ++ [b] }
      | _, _ => { s with status := Status.panicked }

/-- The `for` loop of `handleShell` (`ssh.go` lines 69-131): read a byte, stop
with `eof` when there is none, otherwise run the body and go on while no
`return` and no panic has happened. -/
def shellLoop (s : Shell) : Shell :=
  match h : s.reader with
  | [] => { s with status := Status.eof }
  | b :: rest =>
    if (shellBody b { s with reader := rest }).status = Status.running then
      shellLoop (shellBody b { s with reader := rest })
    else
      shellBody b { s with reader := rest }
termination_by s.reader.length
decreasing_by
  have hE : ∀ t : Shell, (handleEscapeSequence t).1.reader.length ≤ t.reader.length := by
    intro t
    unfold handleEscapeSequence
    rcases hr : t.reader with _ | ⟨seq1, _ | ⟨seq2, r2⟩⟩
    · simp [hr]
    · by_cases h1 : seq1 = 91 <;> simp [h1]
    · by_cases h1 : seq1 = 91 <;> simp only [h1, ne_eq, not_true_eq_false, not_false_eq_true,
        if_true, if_false, List.length_cons]
      · split_ifs <;> simp only [] <;> omega
      · omega
  have hB : ∀ t : Shell, (shellBody b t).reader.length ≤ t.reader.length := by
    intro t
    have h2 := hE t
    unfold shellBody
    split_ifs
    all_goals first
      | (simp; done)
      | ((split <;> simp); done)
      | (split <;> simp_all)
  have h1 := hB { s with reader := rest }
  simp only [h, List.length_cons] at *
  omega

/-- The banner and first prompt `handleShell` writes. -/
def banner : Bytes := ascii "Mock shell started. Type \x27exit\x27 to close. \r\n$ "

/-- The function `handleShell` (`ssh.go` lines 65-132) run on a channel whose
input is `input`, with the package-level buffer holding `cmdBuffer` on entry. -/
def handleShell (cmdBuffer : Bytes) (input : Bytes) : Shell :=
  shellLoop { cmdBuffer := cmdBuffer, cursorPos := 0, reader := input,
              out := banner, echoCalls := [], status := Status.running }

/-- Trimming of leading and trailing white space, as the specification words
the exit test ("the buffer's trimmed text"). -/
def specTrim (t : Bytes) : Bytes :=
  let ws : Nat → Bool := fun c => c = 32 ∨ c = 9 ∨ c = 10 ∨ c = 11 ∨ c = 12 ∨ c = 13
  ((t.dropWhile ws).reverse.dropWhile ws).reverse

/-- The units the `default` case of the `switch` handles. -/
def ordinary (b : Nat) : Prop :=
  b ≠ 13 ∧ b ≠ 10 ∧ b ≠ 127 ∧ b ≠ 8 ∧ b ≠ 3 ∧ b ≠ 4 ∧ b ≠ 12 ∧ b ≠ 27

instance (b : Nat) : Decidable (ordinary b) := by
  unfold ordinary; infer_instance

/-- One pass of the `for` loop of `handleShell`: `ReadByte`, which ends the
loop when the input is exhausted, then the `switch` on the byte read. -/
def shellPass (s : Shell) : Shell :=
  match s.reader with
  | [] => { s with status := Status.eof }
  | b :: rest => shellBody b { s with reader := rest }

/-- The state of a fresh `handleShell` on a channel whose input is `input`,
after the banner has been written, with `cmdBuffer` in the package-level
buffer. -/
def startShell (cmdBuffer : Bytes) (input : Bytes) : Shell :=
  { cmdBuffer := cmdBuffer, cursorPos := 0, reader := input,
    out := banner, echoCalls := [], status := Status.running }

/-- Two interactive sessions served by one process: each `handleShell` has its
own channel and its own local `cursorPos`, and both work on the one
package-level `cmdBuffer` (`ssh.go` lines 14-16).  The `cmdBuffer` fields of
`first` and `second` are copies taken at their last pass. -/
structure TwoShells where
  cmdBuffer : Bytes
  first : Shell
  second : Shell
deriving DecidableEq

/-- One of the two sessions (`pick = false`: the first) performs one pass of its
loop on the shared buffer; a session that has ended does nothing more. -/
def twoShellsPass (t : TwoShells) (pick : Bool) : TwoShells :=
  if pick then
    if t.second.status = Status.running then
      { t with cmdBuffer := (shellPass { t.second with cmdBuffer := t.cmdBuffer }).cmdBuffer,
               second := shellPass { t.second with cmdBuffer := t.cmdBuffer } }
    else t
  else
    if t.first.status = Status.running then
      { t with cmdBuffer := (shellPass { t.first with cmdBuffer := t.cmdBuffer }).cmdBuffer,
               first := shellPass { t.first with cmdBuffer := t.cmdBuffer } }
    else t

/-- Two sessions started on an empty package-level buffer and run under a
schedule that says, pass by pass, which session goes next. -/
def interleave (schedule : List Bool) (inputFirst inputSecond : Bytes) : TwoShells :=
  schedule.foldl twoShellsPass
    { cmdBuffer := [], first := startShell [] inputFirst, second := startShell [] inputSecond }

/-- The 4-byte big-endian encoding of an unsigned 32-bit number: the layout of
the width and height fields of a `pty-req` payload and the result of
`ssh.Marshal` on a `uint32` field. -/
def be32 (n : Nat) : Bytes :=
  [n / 16777216 % 256, n / 65536 % 256, n / 256 % 256, n % 256]

/-- The number a 4-byte big-endian field stands for. -/
def be32Value (bs : Bytes) : Nat :=
  bs.foldl (fun acc b => acc * 256 + b) 0

/-- A request of the channel: its `Type`, its `Payload`, and the bytes of the
backing array that lie beyond the length of `Payload` (`spare`, whose length is
`cap(Payload) - len(Payload)`). -/
structure Request where
  reqType : Bytes
  payload : Bytes
  spare : Bytes
deriving DecidableEq

/-- The values `handlePtyReq` extracts: `termEnv`, `widthInt`, `heightInt`. -/
structure PtyReq where
  termEnv : Bytes
  widthInt : Bytes
  heightInt : Bytes
deriving DecidableEq

/-- The parsing part of `handlePtyReq` (`ssh.go` lines 183-188); `none` is a
run-time panic (index or slice bounds out of range).  `termLen` is a `byte`,
so `4+termLen` is computed modulo 256.  On a byte slice the upper bound of
`s[lo:hi]` is checked against the capacity, the lower bound of `s[lo:]` against
the length. -/
def ptyParse (payload spare : Bytes) : Option PtyReq :=
  if 3 < payload.length then
    let termLen := payload.getD 3 0
    let hi := (4 + termLen) % 256
    if 4 ≤ hi ∧ hi ≤ payload.length + spare.length then
      let termEnv := ((payload ++ spare).take hi).drop 4
      if hi ≤ payload.length then
        let width := payload.drop hi
        if 4 ≤ width.length then
          let height := width.drop 4
          let widthInt := width.take 4
          if 4 ≤ height.length + spare.length then
            some { termEnv := termEnv, widthInt := widthInt,
                   heightInt := (height ++ spare).take 4 }
          else none
        else none
      else none
    else none
  else none

/-- What a handler does on the channel and on a request, in order. -/
inductive Event
  | write (data : Bytes)
  | exitStatus (payload : Bytes)
  | reply (reqType : Bytes) (ok : Bool)
  | close
  | ptyLog (pty : PtyReq)
deriving DecidableEq

/-- The state the request handlers work on: the package-level `cmdBuffer`, the
data still to be read from the channel, the calls made on the channel and on
the requests so far (`events`), the arguments of the calls of
`handleEchoCommand` so far, the request types handed to a handler so far
(`handled`), and whether a run-time panic has happened. -/
structure Chan where
  cmdBuffer : Bytes
  input : Bytes
  events : List Event
  echoCalls : List Bytes
  handled : List Bytes
  panicked : Bool
deriving DecidableEq

/-- The function `handleShell` as a request handler: it runs on the data of the
channel and on the package-level buffer as it finds it.  All its writes are
gathered in one `write` event.  Data that the `bufio.Reader` has read ahead and
`handleShell` has not processed is kept in `input`; how much that is depends on
timing, and no statement below runs a second handler on it. -/
def handleShellReq (c : Chan) : Chan :=
  { c with cmdBuffer := (handleShell c.cmdBuffer c.input).cmdBuffer,
           input := (handleShell c.cmdBuffer c.input).reader,
           events := c.events ++ [Event.write (handleShell c.cmdBuffer c.input).out],
           echoCalls := c.echoCalls ++ (handleShell c.cmdBuffer c.input).echoCalls,
           panicked := decide ((handleShell c.cmdBuffer c.input).status = Status.panicked) }

/-- The function `handleExec` (`ssh.go` lines 164-169): the command is
`req.Payload[4:]`, which panics on a payload shorter than 4 bytes. -/
def handleExec (req : Request) (c : Chan) : Chan :=
  match sliceFrom req.payload 4 with
  | none => { c with panicked := true }
  | some cmd =>
    { c with events := c.events ++ [Event.write (handleEchoCommand cmd),
                                     Event.exitStatus (be32 0), Event.close],
             echoCalls := c.echoCalls ++ [cmd] }

/-- The function `handlePtyReq` (`ssh.go` lines 181-193): parse, log, reply
`true`; a panic in the parsing part comes before the log and the reply. -/
def handlePtyReq (req : Request) (c : Chan) : Chan :=
  match ptyParse req.payload req.spare with
  | none => { c with panicked := true }
  | some pty =>
    { c with events := c.events ++ [Event.ptyLog pty, Event.reply req.reqType true] }

/-- The function `handleEnv` (`ssh.go` lines 195-197). -/
def handleEnv (req : Request) (c : Chan) : Chan :=
  { c with events := c.events ++ [Event.reply req.reqType true] }

/-- The function `handleWindowChange` (`ssh.go` lines 199-201). -/
def handleWindowChange (req : Request) (c : Chan) : Chan :=
  { c with events := c.events ++ [Event.reply req.reqType true] }

/-- The `switch req.Type` of `handleRequests` (`ssh.go` lines 48-61). -/
def dispatch (req : Request) (c : Chan) : Chan :=
  if req.reqType = ascii "shell" then
    handleShellReq { c with handled := c.handled ++ [req.reqType] }
  else if req.reqType = ascii "exec" then
    handleExec req { c with handled := c.handled ++ [req.reqType] }
  else if req.reqType = ascii "pty-req" then
    handlePtyReq req { c with handled := c.handled ++ [req.reqType] }
  else if req.reqType = ascii "env" then
    handleEnv req { c with handled := c.handled ++ [req.reqType] }
  else if req.reqType = ascii "window-change" then
    handleWindowChange req { c with handled := c.handled ++ [req.reqType] }
  else
    { c with events := c.events ++ [Event.close] }

/-- The `for req := range requests` loop of `handleRequests`: every request of
the sequence is dispatched in turn; only a panic stops the loop early. -/
def requestsLoop : List Request → Chan → Chan
  | [], c => c
  | req :: rest, c =>
    if (dispatch req c).panicked then dispatch req c
    else requestsLoop rest (dispatch req c)

/-- The function `handleRequests` (`ssh.go` lines 44-63) on the sequence of
requests the channel delivers: the loop, then the deferred `channel.Close()`,
which also runs when the loop is left by a panic. -/
def handleRequests (requests : List Request) (c : Chan) : Chan :=
  { requestsLoop requests c with
    events := (requestsLoop requests c).events ++ [Event.close] }

/-- A channel on which nothing has happened yet. -/
def freshChan (cmdBuffer input : Bytes) : Chan :=
  { cmdBuffer := cmdBuffer, input := input, events := [], echoCalls := [],
    handled := [], panicked := false }

theorem shellLoop_nil (c : Bytes) (p : Nat) (o : Bytes) (e : List Bytes) (st : Status) :
    shellLoop ⟨c, p, [], o, e, st⟩ = ⟨c, p, [], o, e, Status.eof⟩ := by
  rw [shellLoop]

theorem shellLoop_cons (c : Bytes) (p b : Nat) (rest o : Bytes) (e : List Bytes) (st : Status) :
    shellLoop ⟨c, p, b :: rest, o, e, st⟩ =
      if (shellBody b ⟨c, p, rest, o, e, st⟩).status = Status.running then
        shellLoop (shellBody b ⟨c, p, rest, o, e, st⟩)
      else
        shellBody b ⟨c, p, rest, o, e, st⟩ := by
  rw [shellLoop]

/-- Ordinary units typed with the cursor at the end of the buffer are appended
to the buffer and echoed, one after the other. -/
theorem shellLoop_append_ordinary (units : Bytes) (hu : ∀ u ∈ units, ordinary u) :
    ∀ (c rest o : Bytes) (e : List Bytes),
      shellLoop ⟨c, c.length, units ++ rest, o, e, Status.running⟩ =
        shellLoop ⟨c ++ units, (c ++ units).length, rest, o ++ units, e, Status.running⟩ := by
  induction units with
  | nil => intro c rest o e; simp
  | cons u us ih =>
    intro c rest o e
    have h1 : ordinary u := hu u (List.mem_cons_self u us)
    have h2 : ∀ v ∈ us, ordinary v := fun v hv => hu v (List.mem_cons_of_mem u hv)
    obtain ⟨n1, n2, n3, n4, n5, n6, n7, n8⟩ := h1
    have hb : shellBody u ⟨c, c.length, us ++ rest, o, e, Status.running⟩ =
        ⟨c ++ [u], (c ++ [u]).length, us ++ rest, o ++ [u], e, Status.running⟩ := by
      simp [shellBody, n1, n2, n3, n4, n5, n6, n7, n8]
    rw [List.cons_append, shellLoop_cons, hb]
    simp only [if_true]
    rw [ih h2 (c ++ [u]) rest (o ++ [u]) e]
    simp

/-- The line-terminator case of the loop body when the buffer holds `"exit"`. -/
theorem shellBody_terminator_exit (b : Nat) (hb : b = 13 ∨ b = 10) (s : Shell)
    (h : s.cmdBuffer = ascii "exit") :
    shellBody b s =
      { s with out := s.out ++ ascii "\r\n" ++ ascii "Goodbye!\n",
               status := Status.returned } := by
  unfold shellBody
  rw [if_pos hb, if_pos h]

/-- The line-terminator case of the loop body when the buffer does not hold
`"exit"`. -/
theorem shellBody_terminator_line (b : Nat) (hb : b = 13 ∨ b = 10) (s : Shell)
    (h : s.cmdBuffer ≠ ascii "exit") :
    shellBody b s =
      { s with cmdBuffer := [], cursorPos := 0,
               out := s.out ++ ascii "\r\n" ++ handleEchoCommand s.cmdBuffer ++ ascii "$ ",
               echoCalls := s.echoCalls ++ [s.cmdBuffer] } := by
  unfold shellBody
  rw [if_pos hb, if_neg h]

/-- C1: the bytes `handleEchoCommand` writes equal the reference definition of
the Command Interpreter for every input: the remainder after the prefix
`"echo "` and `"\r\n"` when the input begins with that prefix, otherwise
`"Unsupported Command: "`, the full input and `"\r\n"`; `"echo hello"` gives
`"hello\r\n"`, `"foo"` gives `"Unsupported Command: foo\r\n"`, and `"echo"`
and the empty input are unsupported. -/
theorem handleEchoCommand_eq_spec :
    (∀ input : Bytes, handleEchoCommand input = commandInterpreterSpec input) ∧
    (∀ rest : Bytes, handleEchoCommand (ascii "echo " ++ rest) = rest ++ ascii "\r\n") ∧
    (∀ input : Bytes, ¬ (ascii "echo " <+: input) →
      handleEchoCommand input = ascii "Unsupported Command: " ++ input ++ ascii "\r\n") ∧
    handleEchoCommand (ascii "echo hello") = ascii "hello\r\n" ∧
    handleEchoCommand (ascii "foo") = ascii "Unsupported Command: foo\r\n" ∧
    handleEchoCommand (ascii "echo") = ascii "Unsupported Command: echo\r\n" ∧
    handleEchoCommand [] = ascii "Unsupported Command: \r\n" := by
  have key : ∀ input : Bytes,
      (input.length ≥ echoPfx.length ∧ input.take echoPfx.length = echoPfx) ↔
        ascii "echo " <+: input := by
    intro input
    rw [List.prefix_iff_eq_take]
    constructor
    · rintro ⟨_, h⟩
      exact h.symm
    · intro h
      have hl := congrArg List.length h
      rw [List.length_take] at hl
      refine ⟨?_, h.symm⟩
      have : echoPfx.length = (ascii "echo ").length := rfl
      omega
  refine ⟨?_, ?_, ?_, by decide, by decide, by decide, by decide⟩
  · intro input
    unfold handleEchoCommand commandInterpreterSpec
    by_cases h : ascii "echo " <+: input
    · rw [if_pos ((key input).2 h), if_pos (List.isPrefixOf_iff_prefix.2 h)]
      rfl
    · rw [if_neg (fun h1 => h ((key input).1 h1)),
        if_neg (fun h1 => h (List.isPrefixOf_iff_prefix.1 h1))]
      rfl
  · intro rest
    unfold handleEchoCommand
    rw [if_pos ((key _).2 (List.prefix_append _ _))]
    show List.drop (ascii "echo ").length (ascii "echo " ++ rest) ++ ascii "\r\n" = _
    rw [List.drop_left]
  · intro input h
    unfold handleEchoCommand
    rw [if_neg (fun h1 => h ((key input).1 h1))]

/-- C2: on a line terminator with a buffer text other than `"exit"`, whatever
the cursor, the loop body writes `"\r\n"`, then the result of the Command
Interpreter for the buffer text, then the prompt `"$ "`, empties the buffer,
sets the cursor to 0, and the loop goes on reading the rest of the input. -/
theorem shellBody_line_submitted (s : Shell) (b : Nat) (hb : b = 13 ∨ b = 10)
    (ht : s.cmdBuffer ≠ ascii "exit") :
    shellBody b s =
      { s with cmdBuffer := [], cursorPos := 0,
               out := s.out ++ ascii "\r\n" ++ handleEchoCommand s.cmdBuffer ++ ascii "$ ",
               echoCalls := s.echoCalls ++ [s.cmdBuffer] } ∧
    (∀ rest : Bytes, s.status = Status.running →
      shellLoop { s with reader := b :: rest } =
        shellLoop { s with reader := rest, cmdBuffer := [], cursorPos := 0,
                           out := s.out ++ ascii "\r\n" ++ handleEchoCommand s.cmdBuffer
                                    ++ ascii "$ ",
                           echoCalls := s.echoCalls ++ [s.cmdBuffer] }) := by
  refine ⟨shellBody_terminator_line b hb s ht, ?_⟩
  intro rest hrun
  rw [shellLoop_cons, shellBody_terminator_line b hb
    ⟨s.cmdBuffer, s.cursorPos, rest, s.out, s.echoCalls, s.status⟩ ht]
  simp [hrun]

theorem shellBody_line_submitted_witness :
    shellBody 13 ⟨ascii "echo hi", 3, [], [], [], Status.running⟩ =
      ⟨[], 0, [], ascii "\r\nhi\r\n$ ", [ascii "echo hi"], Status.running⟩ := by
  have h := (shellBody_line_submitted ⟨ascii "echo hi", 3, [], [], [], Status.running⟩ 13
    (Or.inl rfl) (by decide)).1
  rw [h]
  decide

/-- C3 (as stated, refuted): the four units of `"exit"` are printable and no
control characters, yet after typing them into a fresh session and a carriage
return the Command Interpreter has received nothing: the session ended with
the goodbye message instead. -/
theorem typed_exit_not_dispatched :
    (∀ u ∈ ascii "exit", ordinary u ∧ 32 ≤ u ∧ u < 127) ∧
    (handleShell [] (ascii "exit" ++ [13])).echoCalls = [] ∧
    (handleShell [] (ascii "exit" ++ [13])).echoCalls ≠ [ascii "exit"] ∧
    (handleShell [] (ascii "exit" ++ [13])).status = Status.returned := by
  refine ⟨by decide, ?_, ?_, ?_⟩ <;>
    simp [handleShell, shellLoop_cons, shellBody, ascii]

/-- C3 (amended): for every sequence of ordinary units (the printable units
are among them) other than exactly `"exit"`, typed into a fresh session with an
empty buffer and followed by a line terminator, the Command Interpreter is
called exactly once, with the concatenation of those units, unmodified. -/
theorem handleShell_dispatches_typed_line (units : Bytes) (term : Nat)
    (hu : ∀ u ∈ units, ordinary u) (ht : term = 13 ∨ term = 10)
    (hne : units ≠ ascii "exit") :
    (handleShell [] (units ++ [term])).echoCalls = [units] := by
  have h1 := shellLoop_append_ordinary units hu [] [term] banner []
  simp only [List.length_nil, List.nil_append] at h1
  unfold handleShell
  rw [h1, shellLoop_cons,
    shellBody_terminator_line term ht ⟨units, units.length, [], banner ++ units, [],
      Status.running⟩ hne]
  simp [shellLoop_nil]

theorem handleShell_dispatches_typed_line_witness :
    (handleShell [] (ascii "echo hi" ++ [13])).echoCalls = [ascii "echo hi"] :=
  handleShell_dispatches_typed_line (ascii "echo hi") 13 (by decide) (Or.inl rfl) (by decide)

/-- C4 (as stated, refuted): the buffer text `" exit"` equals `"exit"` after
trimming, yet on a carriage return the loop body dispatches it to the Command
Interpreter, writes the interpreter's answer and the prompt, and the session
goes on: no goodbye message, no termination. -/
theorem padded_exit_is_dispatched :
    specTrim (ascii " exit") = ascii "exit" ∧
    shellBody 13 ⟨ascii " exit", 5, [], [], [], Status.running⟩ =
      ⟨[], 0, [], ascii "\r\nUnsupported Command:  exit\r\n$ ", [ascii " exit"],
        Status.running⟩ := by
  constructor
  · decide
  · rw [shellBody_terminator_line 13 (Or.inl rfl) _ (by decide)]
    decide

/-- C4 (amended): for every state whose buffer text is exactly `"exit"` (no
trimming), processing a line terminator echoes a newline, writes the goodbye
message and makes `handleShell` return, without a call of the Command
Interpreter; buffer and cursor are left as they are. -/
theorem shellBody_exit (s : Shell) (b : Nat) (hb : b = 13 ∨ b = 10)
    (h : s.cmdBuffer = ascii "exit") :
    shellBody b s =
      { s with out := s.out ++ ascii "\r\n" ++ ascii "Goodbye!\n",
               status := Status.returned } ∧
    (shellBody b s).echoCalls = s.echoCalls ∧
    (∀ rest : Bytes, (shellLoop { s with reader := b :: rest }).status = Status.returned ∧
      (shellLoop { s with reader := b :: rest }).reader = rest) := by
  refine ⟨shellBody_terminator_exit b hb s h, ?_, ?_⟩
  · rw [shellBody_terminator_exit b hb s h]
  · intro rest
    rw [shellLoop_cons, shellBody_terminator_exit b hb
      ⟨s.cmdBuffer, s.cursorPos, rest, s.out, s.echoCalls, s.status⟩ h]
    simp

theorem shellBody_exit_witness :
    shellBody 10 ⟨ascii "exit", 2, [], [], [], Status.running⟩ =
      ⟨ascii "exit", 2, [], ascii "\r\nGoodbye!\n", [], Status.returned⟩ := by
  rw [(shellBody_exit ⟨ascii "exit", 2, [], [], [], Status.running⟩ 10 (Or.inr rfl) rfl).1]
  decide

/-- C5: typing `"exit"` and a line terminator into a fresh session (empty
buffer, cursor 0) makes `handleShell` return: whatever units follow the
terminator, they are left unread, and the output is the banner and prompt, the
echo of `"exit"`, a newline and the goodbye message, with nothing after it and
no call of the Command Interpreter. -/
theorem handleShell_exit_stops_reading (term : Nat) (ht : term = 13 ∨ term = 10)
    (suffix : Bytes) :
    handleShell [] (ascii "exit" ++ term :: suffix) =
      ⟨ascii "exit", 4, suffix, banner ++ ascii "exit" ++ ascii "\r\n" ++ ascii "Goodbye!\n",
        [], Status.returned⟩ ∧
    (handleShell [] (ascii "exit" ++ term :: suffix)).out =
      (handleShell [] (ascii "exit" ++ [term])).out := by
  have key : ∀ sfx : Bytes, handleShell [] (ascii "exit" ++ term :: sfx) =
      ⟨ascii "exit", 4, sfx, banner ++ ascii "exit" ++ ascii "\r\n" ++ ascii "Goodbye!\n",
        [], Status.returned⟩ := by
    intro sfx
    have h1 := shellLoop_append_ordinary (ascii "exit") (by decide) [] (term :: sfx) banner []
    simp only [List.length_nil, List.nil_append] at h1
    unfold handleShell
    rw [h1, shellLoop_cons,
      shellBody_terminator_exit term ht ⟨ascii "exit", (ascii "exit").length, sfx,
        banner ++ ascii "exit", [], Status.running⟩ rfl]
    simp
    rfl
  exact ⟨key suffix, by rw [key suffix, key []]⟩

theorem handleShell_exit_stops_reading_witness :
    (handleShell [] (ascii "exit" ++ 13 :: ascii "echo hi\r")).reader = ascii "echo hi\r" ∧
    (handleShell [] (ascii "exit" ++ 13 :: ascii "echo hi\r")).status = Status.returned := by
  rw [(handleShell_exit_stops_reading 13 (Or.inl rfl) (ascii "echo hi\r")).1]
  exact ⟨rfl, rfl⟩

/-- C6 (the code at the failing input): on Ctrl+C (0x03) the loop body empties
the buffer and writes `"^C\r\n$ "` but leaves the cursor where it was; with the
buffer `"a"` and the cursor at 1 the cursor is still 1 afterwards, not 0. -/
theorem shellBody_interrupt_keeps_cursor :
    (∀ s : Shell, shellBody 3 s =
      { s with cmdBuffer := [], out := s.out ++ ascii "^C\r\n$ " }) ∧
    shellBody 3 ⟨[97], 1, [], [], [], Status.running⟩ =
      ⟨[], 1, [], ascii "^C\r\n$ ", [], Status.running⟩ ∧
    (shellBody 3 ⟨[97], 1, [], [], [], Status.running⟩).cursorPos ≠ 0 := by
  refine ⟨fun s => ?_, ?_, ?_⟩ <;> simp [shellBody, ascii]

/-- C7 (the code at the failing input): after the units `a` and Ctrl+C typed
into a fresh session the buffer is empty and the cursor is 1, so the cursor
exceeds the length of the buffer. -/
theorem cursor_exceeds_buffer_after_interrupt :
    handleShell [] [97, 3] =
      ⟨[], 1, [], banner ++ [97] ++ ascii "^C\r\n$ ", [], Status.eof⟩ ∧
    ¬ ((handleShell [] [97, 3]).cursorPos ≤ (handleShell [] [97, 3]).cmdBuffer.length) := by
  have h : handleShell [] [97, 3] =
      ⟨[], 1, [], banner ++ [97] ++ ascii "^C\r\n$ ", [], Status.eof⟩ := by
    simp [handleShell, shellLoop_cons, shellLoop_nil, shellBody, banner, ascii]
  refine ⟨h, ?_⟩
  rw [h]
  decide

/-- C8: when the cursor is 0 or the buffer is empty, an erase-backward unit
(0x7f or 0x08) changes nothing: buffer, cursor, unread input, output and status
are as before. -/
theorem shellBody_backspace_noop (s : Shell) (b : Nat) (hb : b = 127 ∨ b = 8)
    (h : s.cursorPos = 0 ∨ s.cmdBuffer = []) :
    shellBody b s = s := by
  have hg : ¬ (s.cursorPos > 0 ∧ s.cmdBuffer.length > 0) := by
    rcases h with h | h
    · omega
    · simp [h]
  have hn : ¬ (b = 13 ∨ b = 10) := by omega
  unfold shellBody
  rw [if_neg hn, if_pos hb, if_neg hg]

theorem shellBody_backspace_noop_witness :
    shellBody 127 ⟨ascii "abc", 0, [], [], [], Status.running⟩ =
      ⟨ascii "abc", 0, [], [], [], Status.running⟩ :=
  shellBody_backspace_noop ⟨ascii "abc", 0, [], [], [], Status.running⟩ 127 (Or.inl rfl)
    (Or.inl rfl)

/-- C9: with a cursor `c`, `0 < c ≤ len(buffer)`, an erase-backward unit (0x7f
or 0x08) removes exactly the byte at index `c-1` (the new buffer is
`buffer[0..c-1)` followed by `buffer[c..)`), sets the cursor to `c-1`, and
writes backspace, space, backspace, then the right part and one space, then as
many backspaces as the length of the right part plus 1. -/
theorem shellBody_erase_backward (s : Shell) (b : Nat) (hb : b = 127 ∨ b = 8)
    (h0 : 0 < s.cursorPos) (hc : s.cursorPos ≤ s.cmdBuffer.length) :
    shellBody b s =
      { s with cmdBuffer := s.cmdBuffer.take (s.cursorPos - 1) ++ s.cmdBuffer.drop s.cursorPos,
               cursorPos := s.cursorPos - 1,
               out := s.out ++ [8, 32, 8] ++ (s.cmdBuffer.drop s.cursorPos ++ [32])
                        ++ List.replicate ((s.cmdBuffer.drop s.cursorPos).length + 1) 8 } ∧
    (shellBody b s).cmdBuffer = s.cmdBuffer.eraseIdx (s.cursorPos - 1) ∧
    (shellBody b s).cmdBuffer.length + 1 = s.cmdBuffer.length := by
  have hn : ¬ (b = 13 ∨ b = 10) := by omega
  have hg : s.cursorPos > 0 ∧ s.cmdBuffer.length > 0 := ⟨h0, by omega⟩
  have h1 : sliceTo s.cmdBuffer (s.cursorPos - 1) = some (s.cmdBuffer.take (s.cursorPos - 1)) := by
    unfold sliceTo
    rw [if_pos (by omega)]
  have h2 : sliceFrom s.cmdBuffer s.cursorPos = some (s.cmdBuffer.drop s.cursorPos) := by
    unfold sliceFrom
    rw [if_pos hc]
  have key : shellBody b s =
      { s with cmdBuffer := s.cmdBuffer.take (s.cursorPos - 1) ++ s.cmdBuffer.drop s.cursorPos,
               cursorPos := s.cursorPos - 1,
               out := s.out ++ [8, 32, 8] ++ (s.cmdBuffer.drop s.cursorPos ++ [32])
                        ++ List.replicate ((s.cmdBuffer.drop s.cursorPos).length + 1) 8 } := by
    unfold shellBody
    rw [if_neg hn, if_pos hb, if_pos hg, h1, h2]
    simp only [List.replicate_succ]
    rfl
  refine ⟨key, ?_, ?_⟩
  · rw [key, List.eraseIdx_eq_take_drop_succ]
    have : s.cursorPos - 1 + 1 = s.cursorPos := by omega
    simp only [this]
  · rw [key]
    simp only [List.length_append, List.length_take, List.length_drop]
    omega

theorem shellBody_erase_backward_witness :
    shellBody 127 ⟨ascii "abcd", 2, [], [], [], Status.running⟩ =
      ⟨ascii "acd", 1, [], ascii "\x08 \x08cd \x08\x08\x08", [], Status.running⟩ := by
  rw [(shellBody_erase_backward ⟨ascii "abcd", 2, [], [], [], Status.running⟩ 127 (Or.inl rfl)
    (by decide) (by decide)).1]
  decide

/-- Mid-line insertion of a unit below 0x80: the unit is spliced in at the
cursor, the cursor advances by 1 and the unit is echoed. -/
theorem shellBody_insert_ascii (s : Shell) (u : Nat) (hu : ordinary u) (h7 : u < 128)
    (hc : s.cursorPos < s.cmdBuffer.length) :
    shellBody u s =
      { s with cmdBuffer := s.cmdBuffer.take s.cursorPos ++ [u] ++ s.cmdBuffer.drop s.cursorPos,
               cursorPos := s.cursorPos + 1,
               out := s.out ++ [u] } := by
  obtain ⟨n1, n2, n3, n4, n5, n6, n7, n8⟩ := hu
  have hn : ¬ (u = 13 ∨ u = 10) := by omega
  have hm : ¬ (u = 127 ∨ u = 8) := by omega
  have h1 : sliceTo s.cmdBuffer s.cursorPos = some (s.cmdBuffer.take s.cursorPos) := by
    unfold sliceTo
    rw [if_pos (by omega)]
  have h2 : sliceFrom s.cmdBuffer s.cursorPos = some (s.cmdBuffer.drop s.cursorPos) := by
    unfold sliceFrom
    rw [if_pos (by omega)]
  unfold shellBody
  rw [if_neg hn, if_neg hm, if_neg n5, if_neg n6, if_neg n7, if_neg n8,
    if_neg (by omega), h1, h2]
  simp only [stringOfByte, if_pos h7]

/-- C10 (the code at the failing input): with the buffer `"ab"` and the cursor
at 1, the ordinary unit 0xe9 is spliced in as the two bytes 0xc3 0xa9 of
`string(b)`: the buffer grows by 2, not by 1, and the byte at index 1 is 0xc3,
not the unit; the echo is the single byte 0xe9.  With the cursor at the end
of the buffer the same unit is appended as one byte. -/
theorem shellBody_insert_high_byte :
    ordinary 233 ∧
    shellBody 233 ⟨[97, 98], 1, [], [], [], Status.running⟩ =
      ⟨[97, 195, 169, 98], 2, [], [233], [], Status.running⟩ ∧
    (shellBody 233 ⟨[97, 98], 1, [], [], [], Status.running⟩).cmdBuffer.length = 2 + 2 ∧
    (shellBody 233 ⟨[97, 98], 1, [], [], [], Status.running⟩).cmdBuffer ≠ [97, 233, 98] ∧
    shellBody 233 ⟨[97, 98], 2, [], [], [], Status.running⟩ =
      ⟨[97, 98, 233], 3, [], [233], [], Status.running⟩ := by
  decide

/-- The loop is a pass followed by the loop again, unless the pass ended the
session. -/
theorem shellLoop_pass (s : Shell) :
    shellLoop s =
      if (shellPass s).status = Status.running then shellLoop (shellPass s)
      else shellPass s := by
  obtain ⟨c, p, r, o, e, st⟩ := s
  cases r with
  | nil => rw [shellLoop_nil]; simp [shellPass]
  | cons b rest => rw [shellLoop_cons]; simp [shellPass]

/-- An escape introducer followed by a unit other than `[`: both are consumed
and nothing else changes. -/
theorem shellPass_escape_other (s : Shell) (x : Nat) (rest : Bytes) (hx : x ≠ 91) :
    shellPass { s with reader := 27 :: x :: rest } = { s with reader := rest } := by
  simp [shellPass, shellBody, handleEscapeSequence, hx]

/-- An escape introducer, `[` and an identifier other than `C` and `D`: the
three are consumed and nothing else changes. -/
theorem shellPass_escape_unknown (s : Shell) (y : Nat) (rest : Bytes)
    (h1 : y ≠ 67) (h2 : y ≠ 68) :
    shellPass { s with reader := 27 :: 91 :: y :: rest } = { s with reader := rest } := by
  simp [shellPass, shellBody, handleEscapeSequence, h1, h2]

/-- C11 (as stated, refuted): with the buffer `"a"` and the cursor at 0, which
is within `0 ≤ c ≤ len`, cursor-left does nothing and cursor-right moves the
cursor to 1: after `ESC [ D`, `ESC [ C` the cursor is 1, not 0. -/
theorem left_right_at_line_start :
    shellPass (shellPass ⟨[97], 0, [27, 91, 68, 27, 91, 67], [], [], Status.running⟩) =
      ⟨[97], 1, [], ascii "\x1b[C", [], Status.running⟩ ∧
    (shellPass (shellPass
      ⟨[97], 0, [27, 91, 68, 27, 91, 67], [], [], Status.running⟩)).cursorPos ≠ 0 := by
  decide

/-- C11 (amended): for every buffer and every cursor `c` with `0 < c ≤ len`, and
for the empty buffer with `c = 0`, processing `ESC [ D` and then `ESC [ C`
leaves the cursor equal to `c` and the buffer unchanged; both sequences are
consumed, and in the first case both escape sequences are echoed. -/
theorem cursor_left_then_right (s : Shell) (rest : Bytes)
    (h : (0 < s.cursorPos ∧ s.cursorPos ≤ s.cmdBuffer.length) ∨
         (s.cursorPos = 0 ∧ s.cmdBuffer = [])) :
    (shellPass (shellPass
      { s with reader := 27 :: 91 :: 68 :: 27 :: 91 :: 67 :: rest })).cursorPos = s.cursorPos ∧
    (shellPass (shellPass
      { s with reader := 27 :: 91 :: 68 :: 27 :: 91 :: 67 :: rest })).cmdBuffer = s.cmdBuffer ∧
    (shellPass (shellPass
      { s with reader := 27 :: 91 :: 68 :: 27 :: 91 :: 67 :: rest })).reader = rest ∧
    (0 < s.cursorPos →
      shellPass (shellPass { s with reader := 27 :: 91 :: 68 :: 27 :: 91 :: 67 :: rest }) =
        { s with reader := rest, out := s.out ++ ascii "\x1b[D" ++ ascii "\x1b[C" }) := by
  rcases h with ⟨h0, hc⟩ | ⟨h0, hb⟩
  · have e1 : shellPass { s with reader := 27 :: 91 :: 68 :: 27 :: 91 :: 67 :: rest } =
        ⟨s.cmdBuffer, s.cursorPos - 1, 27 :: 91 :: 67 :: rest, s.out ++ ascii "\x1b[D",
          s.echoCalls, s.status⟩ := by
      simp [shellPass, shellBody, handleEscapeSequence, h0]
    have hlt : s.cursorPos - 1 < s.cmdBuffer.length := by omega
    have hadd : s.cursorPos - 1 + 1 = s.cursorPos := by omega
    have e2 : shellPass ⟨s.cmdBuffer, s.cursorPos - 1, 27 :: 91 :: 67 :: rest,
          s.out ++ ascii "\x1b[D", s.echoCalls, s.status⟩ =
        { s with reader := rest, out := s.out ++ ascii "\x1b[D" ++ ascii "\x1b[C" } := by
      simp [shellPass, shellBody, handleEscapeSequence, hlt, hadd]
    rw [e1, e2]
    exact ⟨rfl, rfl, rfl, fun _ => rfl⟩
  · have e1 : shellPass { s with reader := 27 :: 91 :: 68 :: 27 :: 91 :: 67 :: rest } =
        { s with reader := 27 :: 91 :: 67 :: rest } := by
      simp [shellPass, shellBody, handleEscapeSequence, h0]
    have e2 : shellPass { s with reader := 27 :: 91 :: 67 :: rest } =
        { s with reader := rest } := by
      simp [shellPass, shellBody, handleEscapeSequence, h0, hb]
    rw [e1, e2]
    exact ⟨rfl, rfl, rfl, fun h1 => absurd h1 (by omega)⟩

theorem cursor_left_then_right_witness :
    (shellPass (shellPass ⟨ascii "abc", 2, [27, 91, 68, 27, 91, 67, 120], [], [],
      Status.running⟩)).cursorPos = 2 :=
  (cursor_left_then_right ⟨ascii "abc", 2, [], [], [], Status.running⟩ [120]
    (Or.inl (by decide))).1

/-- C12: an escape introducer followed by a unit `x` other than `[` consumes
exactly those two units, and an escape introducer followed by `[` and an
identifier `y` other than `C` and `D` consumes exactly those three; in both
cases nothing is written, buffer, cursor and status are unchanged, and the loop
goes on with the units that follow. -/
theorem unrecognised_escape_swallowed (s : Shell) (x y : Nat) (rest : Bytes)
    (hx : x ≠ 91) (hy : y ≠ 67 ∧ y ≠ 68) :
    shellPass { s with reader := 27 :: x :: rest } = { s with reader := rest } ∧
    shellPass { s with reader := 27 :: 91 :: y :: rest } = { s with reader := rest } ∧
    (s.status = Status.running →
      shellLoop { s with reader := 27 :: x :: rest } = shellLoop { s with reader := rest } ∧
      shellLoop { s with reader := 27 :: 91 :: y :: rest } =
        shellLoop { s with reader := rest }) := by
  refine ⟨shellPass_escape_other s x rest hx, shellPass_escape_unknown s y rest hy.1 hy.2, ?_⟩
  intro hrun
  constructor
  · rw [shellLoop_pass, shellPass_escape_other s x rest hx]
    simp [hrun]
  · rw [shellLoop_pass, shellPass_escape_unknown s y rest hy.1 hy.2]
    simp [hrun]

theorem unrecognised_escape_swallowed_witness :
    shellPass ⟨ascii "ab", 1, [27, 13, 120], [], [], Status.running⟩ =
      ⟨ascii "ab", 1, [120], [], [], Status.running⟩ ∧
    shellPass ⟨ascii "ab", 1, [27, 91, 65, 120], [], [], Status.running⟩ =
      ⟨ascii "ab", 1, [120], [], [], Status.running⟩ :=
  ⟨(unrecognised_escape_swallowed ⟨ascii "ab", 1, [], [], [], Status.running⟩ 13 65 [120]
      (by decide) (by decide)).1,
   (unrecognised_escape_swallowed ⟨ascii "ab", 1, [], [], [], Status.running⟩ 13 65 [120]
      (by decide) (by decide)).2.1⟩

/-- A well-formed payload whose name is at most 251 bytes long parses to the
name and the two 4-byte fields, whatever follows them and whatever lies in the
spare capacity. -/
theorem ptyParse_short_name (pre name widthField heightField trailing spare : Bytes)
    (hp : pre.length = 3) (hn : name.length ≤ 251)
    (hw : widthField.length = 4) (hh : heightField.length = 4) :
    ptyParse (pre ++ [name.length] ++ name ++ widthField ++ heightField ++ trailing) spare =
      some ⟨name, widthField, heightField⟩ := by
  obtain ⟨a, b, c, rfl⟩ : ∃ a b c, pre = [a, b, c] := by
    match pre, hp with
    | [a, b, c], _ => exact ⟨a, b, c, rfl⟩
  have hmod : (4 + name.length) % 256 = 4 + name.length := Nat.mod_eq_of_lt (by omega)
  have e1 : List.drop (4 + name.length)
      ([a, b, c] ++ [name.length] ++ name ++ widthField ++ heightField ++ trailing) =
      widthField ++ (heightField ++ trailing) := by
    have : [a, b, c] ++ [name.length] ++ name ++ widthField ++ heightField ++ trailing =
        ([a, b, c, name.length] ++ name) ++ (widthField ++ (heightField ++ trailing)) := by simp
    rw [this]
    exact List.drop_left' (by simp; omega)
  have e2 : List.drop 4 (List.take (4 + name.length)
      ([a, b, c] ++ [name.length] ++ name ++ widthField ++ heightField ++ trailing ++ spare)) =
      name := by
    have : [a, b, c] ++ [name.length] ++ name ++ widthField ++ heightField ++ trailing ++ spare =
        ([a, b, c, name.length] ++ name) ++
          (widthField ++ (heightField ++ (trailing ++ spare))) := by simp
    rw [this, List.take_left' (by simp; omega)]
    rfl
  have e3 : List.take 4 (widthField ++ (heightField ++ trailing)) = widthField :=
    List.take_left' hw
  have e4 : List.drop 4 (widthField ++ (heightField ++ trailing)) = heightField ++ trailing :=
    List.drop_left' hw
  have e5 : List.take 4 (heightField ++ trailing ++ spare) = heightField := by
    rw [List.append_assoc]
    exact List.take_left' hh
  have hlen : ([a, b, c] ++ [name.length] ++ name ++ widthField ++ heightField ++
      trailing).length = 4 + name.length + 8 + trailing.length := by
    simp [hw, hh]; omega
  unfold ptyParse
  have g3 : ([a, b, c] ++ [name.length] ++ name ++ widthField ++ heightField ++
      trailing).getD 3 0 = name.length := by simp
  simp only [g3, hmod, e1, e2, e3, e4, e5, hlen]
  rw [if_pos (by omega), if_pos (by omega), if_pos (by omega),
    if_pos (by simp [hw, hh]), if_pos (by simp [hh]; omega)]

/-- A payload whose length byte is 252 or more never parses: the end offset
`4+termLen` wraps around to less than 4 and the slice `Payload[4:4+termLen]`
panics. -/
theorem ptyParse_long_name (payload spare : Bytes)
    (h : 252 ≤ payload.getD 3 0) (h8 : payload.getD 3 0 < 256) :
    ptyParse payload spare = none := by
  unfold ptyParse
  have hlt : ¬ (4 ≤ (4 + payload.getD 3 0) % 256 ∧
      (4 + payload.getD 3 0) % 256 ≤ payload.length + spare.length) := by omega
  by_cases h3 : 3 < payload.length
  · simp only [if_pos h3, if_neg hlt]
  · simp only [if_neg h3]

/-- C13 (the code at the failing input): the payload that encodes the name
`"xterm"`, width 80 and height 24 parses to that name and to the two 4-byte
fields that stand for 80 and 24; the payload with the length byte 252, 252
bytes of name and the same two fields does not parse: the code panics. -/
theorem ptyParse_xterm_and_name_of_252 :
    ptyParse ([0, 0, 0, 5] ++ ascii "xterm" ++ be32 80 ++ be32 24) [] =
      some ⟨ascii "xterm", be32 80, be32 24⟩ ∧
    be32Value (be32 80) = 80 ∧ be32Value (be32 24) = 24 ∧
    ptyParse ([0, 0, 0, 252] ++ List.replicate 252 120 ++ be32 80 ++ be32 24) [] = none := by
  refine ⟨by decide, by decide, by decide, ?_⟩
  exact ptyParse_long_name _ _ (by decide) (by decide)

/-- C14 (the code at the failing input): on the `"xterm"` payload truncated
before the width field, and on a payload of 3 bytes, `handlePtyReq` panics:
the run of `handleRequests` ends by the panic, with no reply and only the
deferred `Close`.  A payload truncated inside the height field, when the
backing array has spare capacity, is parsed with bytes from beyond its length
and is acknowledged with `true`. -/
theorem handlePtyReq_truncated_panics :
    handleRequests [⟨ascii "pty-req", [0, 0, 0, 5] ++ ascii "xterm", []⟩] (freshChan [] []) =
      ⟨[], [], [Event.close], [], [ascii "pty-req"], true⟩ ∧
    handleRequests [⟨ascii "pty-req", [0, 0, 0], []⟩] (freshChan [] []) =
      ⟨[], [], [Event.close], [], [ascii "pty-req"], true⟩ ∧
    handleRequests
        [⟨ascii "pty-req", [0, 0, 0, 5] ++ ascii "xterm" ++ be32 80 ++ [0, 0], [7, 7, 7]⟩]
        (freshChan [] []) =
      ⟨[], [], [Event.ptyLog ⟨ascii "xterm", be32 80, [0, 0, 7, 7]⟩,
                 Event.reply (ascii "pty-req") true, Event.close],
        [], [ascii "pty-req"], false⟩ := by
  decide

/-- C15: for a request whose payload is a 4-byte header followed by `cmd`,
`handleExec` writes exactly the result of the Command Interpreter for `cmd`,
then sends the exit status `0` (four zero bytes), then closes the channel; the
package-level line buffer and the unread data of the channel are left as they
were, and there is no panic. -/
theorem handleExec_one_shot (reqType header cmd spare : Bytes) (c : Chan)
    (h : header.length = 4) :
    handleExec ⟨reqType, header ++ cmd, spare⟩ c =
      { c with events := c.events ++ [Event.write (handleEchoCommand cmd),
                                       Event.exitStatus [0, 0, 0, 0], Event.close],
               echoCalls := c.echoCalls ++ [cmd] } ∧
    (handleExec ⟨reqType, header ++ cmd, spare⟩ c).cmdBuffer = c.cmdBuffer ∧
    (handleExec ⟨reqType, header ++ cmd, spare⟩ c).input = c.input ∧
    (handleExec ⟨reqType, header ++ cmd, spare⟩ c).panicked = c.panicked := by
  have hs : sliceFrom (header ++ cmd) 4 = some cmd := by
    unfold sliceFrom
    rw [if_pos (by simp [h]), List.drop_left' h]
  have key : handleExec ⟨reqType, header ++ cmd, spare⟩ c =
      { c with events := c.events ++ [Event.write (handleEchoCommand cmd),
                                       Event.exitStatus [0, 0, 0, 0], Event.close],
               echoCalls := c.echoCalls ++ [cmd] } := by
    unfold handleExec
    simp only [hs]
    rfl
  rw [key]
  exact ⟨rfl, rfl, rfl, rfl⟩

theorem handleExec_one_shot_witness :
    handleExec ⟨ascii "exec", [0, 0, 0, 7] ++ ascii "echo hi", []⟩ (freshChan (ascii "ab") []) =
      ⟨ascii "ab", [], [Event.write (ascii "hi\r\n"), Event.exitStatus [0, 0, 0, 0],
        Event.close], [ascii "echo hi"], [], false⟩ := by
  rw [(handleExec_one_shot (ascii "exec") [0, 0, 0, 7] (ascii "echo hi") []
    (freshChan (ascii "ab") []) rfl).1]
  decide

/-- C16 (the code at the failing input): the first session types `a` and a
carriage return, the second types `b`, and the passes are taken in the order
first, second, first.  The unit of the second session is spliced into the text
of the first (the shared buffer becomes `"ba"`), and the first session submits
`"ba"` and is answered for `"ba"`; run alone it submits `"a"`. -/
theorem shared_buffer_breaks_isolation :
    (interleave [false, true, false] (ascii "a\r") (ascii "b")).first.echoCalls =
      [ascii "ba"] ∧
    (interleave [false, true, false] (ascii "a\r") (ascii "b")).first.out =
      banner ++ ascii "a\r\nUnsupported Command: ba\r\n$ " ∧
    (interleave [false, true] (ascii "a\r") (ascii "b")).cmdBuffer = ascii "ba" ∧
    (handleShell [] (ascii "a\r")).echoCalls = [ascii "a"] ∧
    (handleShell [] (ascii "a\r")).out =
      banner ++ ascii "a\r\nUnsupported Command: a\r\n$ " := by
  refine ⟨by decide, by decide, by decide, ?_, ?_⟩ <;>
    simp [handleShell, shellLoop_cons, shellLoop_nil, shellBody, handleEchoCommand, echoPfx,
      banner, ascii]

/-- C17 (the code at the failing input): a session ended by the line `"exit"`
leaves `"exit"` in the package-level buffer, and a session ended by Ctrl+D
after `ab` leaves `"ab"` there.  The next session starts on that text with its
cursor at 0: typing `x` and a carriage return submits `"xexit"`, and a bare
carriage return after the Ctrl+D session submits `"ab"`. -/
theorem next_session_inherits_buffer :
    (handleShell [] (ascii "exit\r")).cmdBuffer = ascii "exit" ∧
    (handleShell [] (ascii "exit\r")).status = Status.returned ∧
    (handleShell (handleShell [] (ascii "exit\r")).cmdBuffer (ascii "x\r")).echoCalls =
      [ascii "xexit"] ∧
    (handleShell [] (ascii "ab\x04")).cmdBuffer = ascii "ab" ∧
    (handleShell [] (ascii "ab\x04")).status = Status.returned ∧
    (handleShell (handleShell [] (ascii "ab\x04")).cmdBuffer (ascii "\r")).echoCalls =
      [ascii "ab"] := by
  have h1 : handleShell [] (ascii "exit\r") =
      ⟨ascii "exit", 4, [], banner ++ ascii "exit\r\nGoodbye!\n", [], Status.returned⟩ := by
    simp [handleShell, shellLoop_cons, shellBody, banner, ascii]
  have h2 : handleShell [] (ascii "ab\x04") =
      ⟨ascii "ab", 2, [], banner ++ ascii "ab\r\nlogout\r\n", [], Status.returned⟩ := by
    simp [handleShell, shellLoop_cons, shellBody, banner, ascii]
  rw [h1, h2]
  refine ⟨rfl, rfl, ?_, rfl, rfl, ?_⟩ <;>
    simp [handleShell, shellLoop_cons, shellLoop_nil, shellBody, sliceTo, sliceFrom,
      stringOfByte, ascii]

/-- C18 (the code at the failing input): on the requests `"bogus"`, `"env"` the
channel is closed at the unknown request, which gets no reply, and the loop
goes on: the `"env"` request that follows is handed to `handleEnv` and is
acknowledged with `true`, before the deferred `Close`. -/
theorem request_after_unknown_is_dispatched :
    handleRequests [⟨ascii "bogus", [], []⟩, ⟨ascii "env", [], []⟩] (freshChan [] []) =
      ⟨[], [], [Event.close, Event.reply (ascii "env") true, Event.close], [],
        [ascii "env"], false⟩ ∧
    handleRequests [⟨ascii "bogus", [], []⟩] (freshChan [] []) =
      ⟨[], [], [Event.close, Event.close], [], [], false⟩ := by
  decide

/-- C19 (the code at the failing input): after the units `a`, Ctrl+C, `b` typed
into a fresh session the buffer is empty and the cursor is 1, so the insertion
of `b` evaluates `""[:1]` and `handleShell` ends in a run-time panic, with `b`
neither stored nor echoed. -/
theorem insert_after_interrupt_panics :
    handleShell [] [97, 3, 98] =
      ⟨[], 1, [], banner ++ [97] ++ ascii "^C\r\n$ ", [], Status.panicked⟩ ∧
    sliceTo [] 1 = none := by
  constructor
  · simp [handleShell, shellLoop_cons, shellBody, sliceTo, sliceFrom, banner, ascii]
  · decide

/-- C20 (the code at the failing input): for the length bytes 252, 253, 254 and
255 the end offset `4+termLen`, computed on bytes, is 0, 1, 2 and 3, not 256 to
259, and a payload of `4+N+8` bytes (`N` bytes of name, width 80, height 24)
does not parse: the slice `Payload[4:4+termLen]` panics. -/
theorem ptyParse_offset_wraps :
    (4 + 252) % 256 = 0 ∧ (4 + 253) % 256 = 1 ∧ (4 + 254) % 256 = 2 ∧ (4 + 255) % 256 = 3 ∧
    ([0, 0, 0, 252] ++ List.replicate 252 120 ++ be32 80 ++ be32 24).length = 4 + 252 + 8 ∧
    ptyParse ([0, 0, 0, 252] ++ List.replicate 252 120 ++ be32 80 ++ be32 24) [] = none ∧
    ptyParse ([0, 0, 0, 253] ++ List.replicate 253 120 ++ be32 80 ++ be32 24) [] = none ∧
    ptyParse ([0, 0, 0, 254] ++ List.replicate 254 120 ++ be32 80 ++ be32 24) [] = none ∧
    ptyParse ([0, 0, 0, 255] ++ List.replicate 255 120 ++ be32 80 ++ be32 24) [] = none ∧
    ptyParse ([0, 0, 0, 251] ++ List.replicate 251 120 ++ be32 80 ++ be32 24) [] =
      some ⟨List.replicate 251 120, be32 80, be32 24⟩ := by
  refine ⟨by decide, by decide, by decide, by decide, ?_,
    ptyParse_long_name _ _ (by decide) (by decide),
    ptyParse_long_name _ _ (by decide) (by decide),
    ptyParse_long_name _ _ (by decide) (by decide),
    ptyParse_long_name _ _ (by decide) (by decide), ?_⟩
  · rw [List.length_append, List.length_append, List.length_append, List.length_replicate]
    rfl
  · have h := ptyParse_short_name [0, 0, 0] (List.replicate 251 120) (be32 80) (be32 24) [] []
      rfl (le_of_eq (List.length_replicate _ _)) rfl rfl
    rw [List.length_replicate, List.append_nil] at h
    exact h

end SshServer
